import Mathlib

/-!
# Verification of the EDGAR revenue reconciliation fix

Shallow embedding of `src/fix_edgar_revenue.py`.

The script's core is `fixed_to_financials_dict`, which

1. obtains one company-year row from the external loader
   (`get_company_financials`), returning `None` when no data is available;
2. copies each non-null column value of the row (except `cik` and `year`)
   into a fresh dict `financials`, coercing it with Python's `float`;
3. if both `revenue_products` and `revenue_services` are present, computes
   their sum and overwrites `revenue` with it when the sum exceeds
   `financials.get('revenue', 0)`;
4. if both `revenue` and `cogs` are present, overwrites `gross_profit`
   with `revenue - cogs`.

Numbers are modelled as `ℚ` (all values the claims exercise are integers,
where Python float arithmetic is exact).  Python dicts are modelled as
association lists with Python's assignment semantics (`dset`) and lookup
(`dget`).
-/

namespace EdgarFix

/-- Lookup in a Python dict modelled as an association list:
the value of the first pair whose key matches, if any. -/
def dget {α : Type} (d : List (String × α)) (k : String) : Option α :=
  match d with
  | [] => none
  | (k', v) :: rest => if k' = k then some v else dget rest k

/-- Python dict assignment `d[k] = v`: replace the value at the first
occurrence of `k` in place, or append `(k, v)` when `k` is absent. -/
def dset {α : Type} (d : List (String × α)) (k : String) (v : α) :
    List (String × α) :=
  match d with
  | [] => [(k, v)]
  | (k', w) :: rest => if k' = k then (k, v) :: rest else (k', w) :: dset rest k v

/-- A pandas cell value as it reaches the copy loop: a number, a string,
or a null (`None`/`NaN`). -/
inductive PyVal where
  | num (q : ℚ)
  | str (s : String)
  | null
deriving DecidableEq, Repr

/-- `pd.notna`: `True` for numbers and strings, `False` for nulls. -/
def notna : PyVal → Bool
  | .null => false
  | _ => true

/-- Parse a non-negative decimal integer literal, as Python's `float()`
accepts (restricted to the digits-only case; any other string is rejected). -/
def parseNumLit (cs : List Char) : Option ℚ :=
  if cs ≠ [] ∧ cs.all Char.isDigit then
    some ((cs.foldl (fun n c => 10 * n + (c.toNat - 48)) 0 : ℕ) : ℚ)
  else none

/-- Models Python's `float()` builtin on the value shapes that can occur in
a loader row: a number converts to itself; a string is parsed as a numeric
literal (modelled here for non-negative integer literals — any other string
raises `ValueError`, giving `none`); `None`/`NaN` raises, giving `none`. -/
def pyFloat : PyVal → Option ℚ
  | .num q => some q
  | .str s => parseNumLit s.data
  | .null => none

/-- The copy loop of `fixed_to_financials_dict` (lines 65–70): for each
column in order, skip `cik` and `year`, skip null values, and otherwise
store `float(value)` in `financials`; a value `float` cannot convert
raises, aborting the call. -/
def buildFinancialsAux (fin : List (String × ℚ)) :
    List (String × PyVal) → Except String (List (String × ℚ))
  | [] => .ok fin
  | p :: rest =>
    if p.1 = "cik" ∨ p.1 = "year" then buildFinancialsAux fin rest
    else if notna p.2 then
      match pyFloat p.2 with
      | some q => buildFinancialsAux (dset fin p.1 q) rest
      | none => .error ("could not convert value of " ++ p.1 ++ " to float")
    else buildFinancialsAux fin rest

/-- The `financials` dict built from a loader row by the copy loop. -/
def buildFinancials (row : List (String × PyVal)) :
    Except String (List (String × ℚ)) :=
  buildFinancialsAux [] row

/-- Component-sum override (lines 72–77): if both `revenue_products` and
`revenue_services` are present, set `revenue` to their sum whenever the sum
exceeds `financials.get('revenue', 0)`. -/
def componentFix (fin : List (String × ℚ)) : List (String × ℚ) :=
  if (dget fin "revenue_products").isSome && (dget fin "revenue_services").isSome then
    let total_rev := (dget fin "revenue_products").getD 0 +
      (dget fin "revenue_services").getD 0
    if (dget fin "revenue").getD 0 < total_rev then dset fin "revenue" total_rev
    else fin
  else fin

/-- Gross-profit recomputation (lines 79–81): if both `revenue` and `cogs`
are present, overwrite `gross_profit` with `revenue - cogs`. -/
def grossProfitFix (fin : List (String × ℚ)) : List (String × ℚ) :=
  match dget fin "revenue", dget fin "cogs" with
  | some r, some c => dset fin "gross_profit" (r - c)
  | _, _ => fin

/-- The reconciliation steps of `fixed_to_financials_dict` applied to an
already-built `financials` dict (the spec's `reconcile`). -/
def reconcile (fin : List (String × ℚ)) : List (String × ℚ) :=
  grossProfitFix (componentFix fin)

/-- `fixed_to_financials_dict`, as a function of the result of
`self.get_company_financials(cik, [year])` (a list of rows, or `None`):
return `None` when there is no data, else build `financials` from the
first row and apply the reconciliation steps. -/
def fixed_to_financials_dict
    (company_data : Option (List (List (String × PyVal)))) :
    Except String (Option (List (String × ℚ))) :=
  match company_data with
  | none => .ok none
  | some [] => .ok none
  | some (row :: _) => (buildFinancials row).map (fun fin => some (reconcile fin))

/-- `ADDITIONAL_REVENUE_TAGS` from the script, in source order. -/
def ADDITIONAL_REVENUE_TAGS : List (String × String) :=
  [("RevenueFromContractWithCustomerIncludingAssessedTax", "revenue"),
   ("SalesRevenueGoodsNet", "revenue_products"),
   ("SalesRevenueServicesNet", "revenue_services"),
   ("RevenuesNetOfInterestExpense", "revenue"),
   ("RevenueNet", "revenue"),
   ("TotalRevenues", "revenue"),
   ("NetSales", "revenue"),
   ("SalesRevenueGoodsGross", "revenue"),
   ("TotalRevenuesAndOtherIncome", "revenue"),
   ("RevenueFromContractWithCustomerExcludingAssessedTaxTransferredAtPointInTime", "revenue_point"),
   ("RevenueFromContractWithCustomerExcludingAssessedTaxTransferredOverTime", "revenue_over_time")]

/-- The registration loop (lines 41–43): for each `(tag, var)` of
`additional` in order, insert it into the mapping only when `tag` is not
already a key. -/
def registerTags (mapping additional : List (String × String)) :
    List (String × String) :=
  additional.foldl
    (fun m p => if (dget m p.1).isSome then m else dset m p.1 p.2) mapping

/-! ### State-passing embedding

To settle the frame claim (the input `row` object is never mutated) the
body of `fixed_to_financials_dict` is also embedded with the mutable
state explicit: the state carries both the loader `row` and the
`financials` dict, every Python statement is a state transformer, and
each dict write names the dict it targets.  Python's raising of an
exception mid-loop is modelled by returning the state at the point of
the raise together with the error. -/

/-- The mutable state of one `fixed_to_financials_dict` call: the loader
row and the `financials` dict under construction. -/
structure St where
  row : List (String × PyVal)
  financials : List (String × ℚ)
deriving DecidableEq, Repr

/-- The copy loop as a state transformer: iterate over the column names of
`row.index`, reading `row[col]` from the state and writing only to
`financials`.  A conversion failure stops the loop, returning the state at
that point and the error. -/
def buildLoopS : List String → St → St × Option String
  | [], st => (st, none)
  | col :: rest, st =>
    if col = "cik" ∨ col = "year" then buildLoopS rest st
    else
      match dget st.row col with
      | some v =>
        if notna v then
          match pyFloat v with
          | some q => buildLoopS rest ⟨st.row, dset st.financials col q⟩
          | none => (st, some ("could not convert value of " ++ col ++ " to float"))
        else buildLoopS rest st
      | none => (st, some ("KeyError: " ++ col))

/-- The component-sum override as a state transformer: only
`financials['revenue']` is ever assigned. -/
def componentFixS (st : St) : St :=
  if (dget st.financials "revenue_products").isSome &&
      (dget st.financials "revenue_services").isSome then
    let total_rev := (dget st.financials "revenue_products").getD 0 +
      (dget st.financials "revenue_services").getD 0
    if (dget st.financials "revenue").getD 0 < total_rev then
      ⟨st.row, dset st.financials "revenue" total_rev⟩
    else st
  else st

/-- The gross-profit recomputation as a state transformer: only
`financials['gross_profit']` is ever assigned. -/
def grossProfitFixS (st : St) : St :=
  match dget st.financials "revenue", dget st.financials "cogs" with
  | some r, some c => ⟨st.row, dset st.financials "gross_profit" (r - c)⟩
  | _, _ => st

/-- One full run of the body of `fixed_to_financials_dict` on a row, with
the state explicit: start from the row and an empty `financials` dict, run
the copy loop, and (when it did not raise) the two fix steps.  Returns the
final state and the raised error, if any. -/
def runFixedS (r : List (String × PyVal)) : St × Option String :=
  match buildLoopS (r.map Prod.fst) ⟨r, []⟩ with
  | (st, some e) => (st, some e)
  | (st, none) => (grossProfitFixS (componentFixS st), none)

/-! ### Dict lemmas -/

theorem dget_dset_self {α : Type} (d : List (String × α)) (k : String) (v : α) :
    dget (dset d k v) k = some v := by
  induction d with
  | nil => simp [dget, dset]
  | cons p rest ih =>
    obtain ⟨k', w⟩ := p
    by_cases h : k' = k <;> simp [dget, dset, h, ih]

theorem dget_dset_ne {α : Type} (d : List (String × α)) {k k' : String} (v : α)
    (h : k' ≠ k) : dget (dset d k v) k' = dget d k' := by
  induction d with
  | nil => simp [dget, dset, Ne.symm h]
  | cons p rest ih =>
    obtain ⟨k'', w⟩ := p
    by_cases h1 : k'' = k
    · subst h1
      simp [dget, dset, Ne.symm h]
    · simp [dget, dset, h1, ih]

/-! ### Frame lemmas for the reconciliation steps -/

theorem dget_componentFix_ne (fin : List (String × ℚ)) {k : String}
    (h : k ≠ "revenue") : dget (componentFix fin) k = dget fin k := by
  simp only [componentFix]
  split
  · split
    · exact dget_dset_ne fin _ h
    · rfl
  · rfl

theorem dget_grossProfitFix_ne (fin : List (String × ℚ)) {k : String}
    (h : k ≠ "gross_profit") : dget (grossProfitFix fin) k = dget fin k := by
  unfold grossProfitFix
  split
  · exact dget_dset_ne fin _ h
  · rfl

theorem dget_reconcile_revenue (fin : List (String × ℚ)) :
    dget (reconcile fin) "revenue" = dget (componentFix fin) "revenue" :=
  dget_grossProfitFix_ne _ (by decide)

/-! ### C2: gross profit recomputed from revenue and cogs -/

/-- C2: whenever `revenue` and `cogs` are both present after the
component-sum override step, the result of `reconcile` carries
`gross_profit = revenue - cogs`, overwriting any directly-reported value,
and its `revenue` and `cogs` fields are those post-override values. -/
theorem gross_profit_overwritten (fin : List (String × ℚ)) (R C : ℚ)
    (hR : dget (componentFix fin) "revenue" = some R)
    (hC : dget (componentFix fin) "cogs" = some C) :
    dget (reconcile fin) "gross_profit" = some (R - C) ∧
    dget (reconcile fin) "revenue" = some R ∧
    dget (reconcile fin) "cogs" = some C := by
  have hgp : reconcile fin = dset (componentFix fin) "gross_profit" (R - C) := by
    unfold reconcile grossProfitFix
    rw [hR, hC]
  refine ⟨?_, ?_, ?_⟩ <;> rw [hgp]
  · exact dget_dset_self _ _ _
  · rw [dget_dset_ne _ _ (by decide)]; exact hR
  · rw [dget_dset_ne _ _ (by decide)]; exact hC

/-- Witness for C2: a row with a stale `gross_profit = 999` has it
overwritten with `7 - 3`. -/
theorem gross_profit_overwritten_witness :
    dget (reconcile [("revenue", (7:ℚ)), ("cogs", 3), ("gross_profit", 999)]) "gross_profit" = some (7 - 3) ∧
    dget (reconcile [("revenue", (7:ℚ)), ("cogs", 3), ("gross_profit", 999)]) "revenue" = some 7 ∧
    dget (reconcile [("revenue", (7:ℚ)), ("cogs", 3), ("gross_profit", 999)]) "cogs" = some 3 :=
  gross_profit_overwritten _ 7 3 (by simp [componentFix, dget]) (by simp [componentFix, dget])

/-! ### C5: revenue untouched when no components are present -/

/-- C5: on a row containing neither `revenue_products` nor
`revenue_services`, `reconcile` leaves the `revenue` field identical to the
input's — present with the same value, or absent with no zero-fill. -/
theorem revenue_unchanged_no_components (fin : List (String × ℚ))
    (hp : dget fin "revenue_products" = none)
    (hs : dget fin "revenue_services" = none) :
    dget (reconcile fin) "revenue" = dget fin "revenue" := by
  rw [dget_reconcile_revenue]
  simp [componentFix, hp, hs]

/-- Witness for C5 at a concrete row with only `revenue` and an unrelated
passthrough field. -/
theorem revenue_unchanged_no_components_witness :
    dget (reconcile [("revenue", (7:ℚ)), ("accounts_receivable", 29508000000)]) "revenue" =
      dget [("revenue", (7:ℚ)), ("accounts_receivable", 29508000000)] "revenue" :=
  revenue_unchanged_no_components _ (by simp [dget]) (by simp [dget])

/-! ### C9: no loader data gives None -/

/-- C9: when `get_company_financials` returns `None` or an empty row set,
the patched `to_financials_dict` returns `None` — not an empty mapping and
not an error. -/
theorem no_data_returns_none (cd : Option (List (List (String × PyVal))))
    (h : cd = none ∨ cd = some []) :
    fixed_to_financials_dict cd = .ok none := by
  rcases h with h | h <;> subst h <;> rfl

/-- Witness for C9 at `company_data = None`. -/
theorem no_data_returns_none_witness :
    fixed_to_financials_dict none = .ok none :=
  no_data_returns_none none (Or.inl rfl)

/-! ### C1: component dominance

The source compares the component sum against `financials.get('revenue', 0)`,
so when `revenue` is absent and the sum is `0` (both components zero), the
guard `total_rev > 0` fails and `revenue` stays absent, where the claim
demands `revenue = A + B = 0`. -/

/-- Counterexample to C1 as stated: on the row
`{revenue_products: 0, revenue_services: 0}` (components present and
non-negative, `revenue` absent) the output `revenue` is absent, not
`0 + 0`. -/
theorem component_dominance_cex :
    dget [("revenue_products", (0:ℚ)), ("revenue_services", 0)] "revenue_products" = some 0 ∧
    dget [("revenue_products", (0:ℚ)), ("revenue_services", 0)] "revenue_services" = some 0 ∧
    dget [("revenue_products", (0:ℚ)), ("revenue_services", 0)] "revenue" = none ∧
    ¬ dget (reconcile [("revenue_products", (0:ℚ)), ("revenue_services", 0)]) "revenue" = some (0 + 0) := by
  refine ⟨by simp [dget], by simp [dget], by simp [dget], ?_⟩
  simp [reconcile, componentFix, grossProfitFix, dget, dset]

/-- C1 (amended): with `revenue_products = A` and `revenue_services = B`
present, `A, B ≥ 0`, the output `revenue` equals `max R (A + B)` when
`revenue = R` is present; when `revenue` is absent it equals `A + B` if
`A + B > 0`, and stays absent if `A + B = 0`. -/
theorem component_dominance_amended (fin : List (String × ℚ)) (A B : ℚ)
    (hA : dget fin "revenue_products" = some A)
    (hB : dget fin "revenue_services" = some B)
    (hA0 : 0 ≤ A) (hB0 : 0 ≤ B) :
    (∀ R, dget fin "revenue" = some R →
      dget (reconcile fin) "revenue" = some (max R (A + B))) ∧
    (dget fin "revenue" = none → 0 < A + B →
      dget (reconcile fin) "revenue" = some (A + B)) ∧
    (dget fin "revenue" = none → A + B = 0 →
      dget (reconcile fin) "revenue" = none) := by
  refine ⟨?_, ?_, ?_⟩
  · intro R hR
    rw [dget_reconcile_revenue]
    simp only [componentFix, hA, hB, hR, Option.isSome_some, Bool.and_self,
      if_true, Option.getD_some]
    by_cases hlt : R < A + B
    · rw [if_pos hlt, dget_dset_self, max_eq_right (le_of_lt hlt)]
    · rw [if_neg hlt, hR, max_eq_left (not_lt.mp hlt)]
  · intro hR hpos
    rw [dget_reconcile_revenue]
    simp only [componentFix, hA, hB, hR, Option.isSome_some, Bool.and_self,
      if_true, Option.getD_some, Option.getD_none]
    rw [if_pos hpos, dget_dset_self]
  · intro hR hzero
    rw [dget_reconcile_revenue]
    simp only [componentFix, hA, hB, hR, Option.isSome_some, Bool.and_self,
      if_true, Option.getD_some, Option.getD_none]
    rw [if_neg (by rw [hzero]; exact lt_irrefl 0), hR]

/-- Witness for the amended C1: row with `revenue = 100` and zero
components keeps `revenue = max 100 (0 + 0) = 100`. -/
theorem component_dominance_amended_witness :
    dget (reconcile [("revenue", (100:ℚ)), ("revenue_products", 0), ("revenue_services", 0)]) "revenue" =
      some (max 100 (0 + 0)) :=
  (component_dominance_amended _ 0 0 (by simp [dget]) (by simp [dget])
    le_rfl le_rfl).1 100 (by simp [dget])

/-! ### C3: the dominance invariant needs revenue to be present

With a negative component sum and `revenue` absent, the comparison
against `financials.get('revenue', 0)` fails and `revenue` stays absent,
so the invariant's demand that the output contain `revenue` fails. -/

/-- Counterexample to C3 as stated: on
`{revenue_products: -1, revenue_services: 0}` both components are present
but the output has no `revenue` field at all. -/
theorem dominance_invariant_cex :
    dget [("revenue_products", (-1:ℚ)), ("revenue_services", 0)] "revenue_products" = some (-1) ∧
    dget [("revenue_products", (-1:ℚ)), ("revenue_services", 0)] "revenue_services" = some 0 ∧
    dget (reconcile [("revenue_products", (-1:ℚ)), ("revenue_services", 0)]) "revenue" = none := by
  refine ⟨by simp [dget], by simp [dget], ?_⟩
  simp [reconcile, componentFix, grossProfitFix, dget, dset]

/-- C3 (amended): with both components present, whenever the input has a
`revenue` field or the component sum is positive, the output `revenue` is
present and at least `revenue_products + revenue_services`. -/
theorem dominance_invariant_amended (fin : List (String × ℚ)) (A B : ℚ)
    (hA : dget fin "revenue_products" = some A)
    (hB : dget fin "revenue_services" = some B)
    (hpres : (dget fin "revenue").isSome = true ∨ 0 < A + B) :
    ∃ R, dget (reconcile fin) "revenue" = some R ∧ A + B ≤ R := by
  by_cases hlt : (dget fin "revenue").getD 0 < A + B
  · refine ⟨A + B, ?_, le_refl _⟩
    rw [dget_reconcile_revenue]
    simp only [componentFix, hA, hB, Option.isSome_some, Bool.and_self,
      if_true, Option.getD_some]
    rw [if_pos hlt, dget_dset_self]
  · have hfin : dget (componentFix fin) "revenue" = dget fin "revenue" := by
      simp only [componentFix, hA, hB, Option.isSome_some, Bool.and_self,
        if_true, Option.getD_some]
      rw [if_neg hlt]
    cases hR : dget fin "revenue" with
    | none =>
      rcases hpres with hp | hp
      · rw [hR] at hp; simp at hp
      · rw [hR] at hlt; simp only [Option.getD_none] at hlt
        exact absurd hp hlt
    | some R =>
      refine ⟨R, ?_, ?_⟩
      · rw [dget_reconcile_revenue, hfin, hR]
      · rw [hR] at hlt; simp only [Option.getD_some] at hlt
        exact not_lt.mp hlt

/-- Witness for the amended C3: with `revenue = 5` present and components
`1` and `1`, the output `revenue` dominates `1 + 1`. -/
theorem dominance_invariant_amended_witness :
    ∃ R, dget (reconcile [("revenue", (5:ℚ)), ("revenue_products", 1), ("revenue_services", 1)]) "revenue" =
      some R ∧ (1:ℚ) + 1 ≤ R :=
  dominance_invariant_amended _ 1 1 (by simp [dget]) (by simp [dget])
    (Or.inl (by simp [dget]))

/-! ### C8: the Apple scenario -/

/-- C8: on the row `{revenue: 181000000000, revenue_products: 298085000000,
revenue_services: 85200000000, cogs: 214137000000}` the output carries
`revenue = 383285000000` and `gross_profit = 169148000000`. -/
theorem apple_scenario :
    dget (reconcile [("revenue", (181000000000:ℚ)), ("revenue_products", 298085000000),
      ("revenue_services", 85200000000), ("cogs", 214137000000)]) "revenue" = some 383285000000 ∧
    dget (reconcile [("revenue", (181000000000:ℚ)), ("revenue_products", 298085000000),
      ("revenue_services", 85200000000), ("cogs", 214137000000)]) "gross_profit" = some 169148000000 := by
  constructor
  · simp [reconcile, componentFix, grossProfitFix, dget, dset]
    norm_num
    simp [dget, dset]
  · simp [reconcile, componentFix, grossProfitFix, dget, dset]
    norm_num
    simp [dget, dset]
    norm_num

/-! ### C7: registration never removes or overrides existing tags -/

/-- Registration preserves every existing entry, for any list of
additional tags. -/
theorem dget_registerTags_preserved (additional : List (String × String)) :
    ∀ (mapping : List (String × String)) (tag v : String),
      dget mapping tag = some v →
      dget (registerTags mapping additional) tag = some v := by
  induction additional with
  | nil => intro m t v h; exact h
  | cons p rest ih =>
    intro m t v h
    simp only [registerTags, List.foldl_cons] at ih ⊢
    by_cases hmem : (dget m p.1).isSome
    · rw [if_pos hmem]
      exact ih m t v h
    · rw [if_neg hmem]
      have hne : t ≠ p.1 := by
        intro he
        subst he
        rw [h] at hmem
        simp at hmem
      exact ih _ t v (by rw [dget_dset_ne _ _ hne]; exact h)

/-- C7: for every tag present in `EDGAR_TAG_MAPPING` before the
registration loop over `ADDITIONAL_REVENUE_TAGS` runs, the tag still maps
to the same canonical field afterwards (and is in particular still
present). -/
theorem registration_preserves_existing (mapping : List (String × String))
    (tag v : String) (h : dget mapping tag = some v) :
    dget (registerTags mapping ADDITIONAL_REVENUE_TAGS) tag = some v :=
  dget_registerTags_preserved ADDITIONAL_REVENUE_TAGS mapping tag v h

/-- Witness for C7: a pre-existing `NetSales → total_sales` entry survives
the loop even though `ADDITIONAL_REVENUE_TAGS` maps `NetSales` to
`revenue`. -/
theorem registration_preserves_existing_witness :
    dget (registerTags [("NetSales", "total_sales")] ADDITIONAL_REVENUE_TAGS) "NetSales" =
      some "total_sales" :=
  registration_preserves_existing _ _ _ (by simp [dget])

/-! ### C6: the input row is never mutated -/

/-- The copy loop writes only to `financials`: the `row` component of the
state is preserved, raise or no raise. -/
theorem buildLoopS_preserves_row :
    ∀ (cols : List String) (st : St), ((buildLoopS cols st).1).row = st.row := by
  intro cols
  induction cols with
  | nil => intro st; rfl
  | cons c rest ih =>
    intro st
    simp only [buildLoopS]
    split
    · exact ih st
    · split
      · split
        · split
          · exact ih _
          · rfl
        · exact ih st
      · rfl

/-- The component-sum override writes only to `financials`. -/
theorem componentFixS_preserves_row (st : St) : (componentFixS st).row = st.row := by
  simp only [componentFixS]
  split
  · split <;> rfl
  · rfl

/-- The gross-profit recomputation writes only to `financials`. -/
theorem grossProfitFixS_preserves_row (st : St) : (grossProfitFixS st).row = st.row := by
  simp only [grossProfitFixS]
  split <;> rfl

/-- C6: a full run of the patched body leaves the input row unchanged —
every write in the state-passing embedding targets the fresh `financials`
dict, whether or not the run raises.  (Determinism is definitional: the
run is a pure function of the input row.) -/
theorem run_never_mutates_row (r : List (String × PyVal)) :
    ((runFixedS r).1).row = r := by
  have hb := buildLoopS_preserves_row (r.map Prod.fst) ⟨r, []⟩
  rcases hbl : buildLoopS (r.map Prod.fst) ⟨r, []⟩ with ⟨st, e⟩
  rw [hbl] at hb
  cases e with
  | none =>
    simp only [runFixedS, hbl, grossProfitFixS_preserves_row, componentFixS_preserves_row]
    exact hb
  | some err =>
    simp only [runFixedS, hbl]
    exact hb

/-! ### C4: when the call raises

The copy loop raises exactly when some processed value fails `float()`
conversion.  Python's `float()` silently accepts numeric strings, so a
present non-number value need not raise; and values under the skipped
`cik`/`year` columns are never looked at. -/

/-- The copy loop raises iff the row has an entry, outside `cik`/`year`,
whose value is non-null and rejected by `float()`. -/
theorem buildFinancialsAux_error_iff :
    ∀ (rest : List (String × PyVal)) (fin : List (String × ℚ)),
      (∃ e, buildFinancialsAux fin rest = .error e) ↔
      ∃ p, p ∈ rest ∧ ¬(p.1 = "cik" ∨ p.1 = "year") ∧ notna p.2 = true ∧ pyFloat p.2 = none := by
  intro rest
  induction rest with
  | nil =>
    intro fin
    simp [buildFinancialsAux]
  | cons p rest ih =>
    intro fin
    simp only [buildFinancialsAux]
    by_cases h1 : p.1 = "cik" ∨ p.1 = "year"
    · rw [if_pos h1, ih fin]
      constructor
      · rintro ⟨q, hq, hrest⟩
        exact ⟨q, List.mem_cons_of_mem _ hq, hrest⟩
      · rintro ⟨q, hq, hns, hn, hpf⟩
        rcases List.mem_cons.mp hq with he | hm
        · subst he; exact absurd h1 hns
        · exact ⟨q, hm, hns, hn, hpf⟩
    · rw [if_neg h1]
      by_cases h2 : notna p.2 = true
      · rw [if_pos h2]
        cases hp : pyFloat p.2 with
        | some q =>
          simp only [hp, ih]
          constructor
          · rintro ⟨r, hr, hrest⟩
            exact ⟨r, List.mem_cons_of_mem _ hr, hrest⟩
          · rintro ⟨r, hr, hns, hn, hpf⟩
            rcases List.mem_cons.mp hr with he | hm
            · subst he; rw [hp] at hpf; exact absurd hpf (by simp)
            · exact ⟨r, hm, hns, hn, hpf⟩
        | none =>
          simp only [hp]
          constructor
          · intro _
            exact ⟨p, List.mem_cons_self _ _, h1, h2, hp⟩
          · intro _
            exact ⟨_, rfl⟩
      · rw [if_neg h2, ih fin]
        constructor
        · rintro ⟨q, hq, hrest⟩
          exact ⟨q, List.mem_cons_of_mem _ hq, hrest⟩
        · rintro ⟨q, hq, hns, hn, hpf⟩
          rcases List.mem_cons.mp hq with he | hm
          · subst he; exact absurd hn h2
          · exact ⟨q, hm, hns, hn, hpf⟩

/-- Counterexample to C4 as stated: the string `"5"` is a present value
that is not a number, yet the call does not report an error — `float()`
silently coerces it to `5.0`. -/
theorem silent_coercion_cex :
    notna (PyVal.str "5") = true ∧
    fixed_to_financials_dict (some [[("revenue", PyVal.str "5")]]) = .ok (some [("revenue", 5)]) := by
  refine ⟨rfl, ?_⟩
  simp [fixed_to_financials_dict, buildFinancials, buildFinancialsAux, notna, pyFloat,
    parseNumLit, reconcile, componentFix, grossProfitFix, dget, dset, Except.map]

/-- C4 (amended): the patched call reports an error exactly when the row
has a present value, outside the skipped `cik`/`year` columns, that
Python's `float()` cannot convert; convertible non-numbers (numeric
strings) are silently coerced, and the call never raises merely because
canonical fields are absent. -/
theorem reconcile_error_iff_unconvertible (row : List (String × PyVal)) :
    (∃ e, fixed_to_financials_dict (some [row]) = .error e) ↔
    ∃ p, p ∈ row ∧ ¬(p.1 = "cik" ∨ p.1 = "year") ∧ notna p.2 = true ∧ pyFloat p.2 = none := by
  rw [← buildFinancialsAux_error_iff row []]
  simp only [fixed_to_financials_dict, buildFinancials]
  cases h : buildFinancialsAux [] row with
  | ok fin => simp [h, Except.map]
  | error e => simp [h, Except.map]

/-- Witness for the amended C4: the unconvertible string `"abc"` under a
non-skipped column makes the call raise. -/
theorem reconcile_error_iff_unconvertible_witness :
    ∃ e, fixed_to_financials_dict (some [[("revenue", PyVal.str "abc")]]) = .error e :=
  (reconcile_error_iff_unconvertible _).mpr
    ⟨("revenue", PyVal.str "abc"), by simp, by decide, rfl, by decide⟩

/-! ### C10: shape of the returned mapping

The copy loop indeed never emits `cik`/`year` and copies only non-null
values, but the claim overlooks that the reconciliation steps may add a
`revenue` (and `gross_profit`) key that had no non-null value in the
row. -/

/-- The copy loop never writes the skipped `cik`/`year` columns. -/
theorem buildFinancialsAux_skips_cik_year :
    ∀ (rest : List (String × PyVal)) (fin out : List (String × ℚ)),
      buildFinancialsAux fin rest = .ok out →
      ∀ k, (k = "cik" ∨ k = "year") → dget out k = dget fin k := by
  intro rest
  induction rest with
  | nil =>
    intro fin out h k _
    simp only [buildFinancialsAux] at h
    injection h with h'
    rw [h']
  | cons p rest ih =>
    intro fin out h k hk
    simp only [buildFinancialsAux] at h
    by_cases h1 : p.1 = "cik" ∨ p.1 = "year"
    · rw [if_pos h1] at h
      exact ih fin out h k hk
    · rw [if_neg h1] at h
      by_cases h2 : notna p.2 = true
      · rw [if_pos h2] at h
        cases hp : pyFloat p.2 with
        | some q =>
          simp only [hp] at h
          rw [ih _ out h k hk, dget_dset_ne]
          intro he
          exact h1 (he ▸ hk)
        | none =>
          simp only [hp] at h
          exact absurd h (by simp)
      · rw [if_neg h2] at h
        exact ih fin out h k hk

/-- Every key of the dict built by the copy loop was already in the
accumulator or comes from a non-null row value. -/
theorem buildFinancialsAux_keys :
    ∀ (rest : List (String × PyVal)) (fin out : List (String × ℚ)),
      buildFinancialsAux fin rest = .ok out →
      ∀ k, (dget out k).isSome = true →
        (dget fin k).isSome = true ∨ ∃ v, (k, v) ∈ rest ∧ notna v = true := by
  intro rest
  induction rest with
  | nil =>
    intro fin out h k hk
    simp only [buildFinancialsAux] at h
    injection h with h'
    subst h'
    exact Or.inl hk
  | cons p rest ih =>
    intro fin out h k hk
    simp only [buildFinancialsAux] at h
    by_cases h1 : p.1 = "cik" ∨ p.1 = "year"
    · rw [if_pos h1] at h
      rcases ih fin out h k hk with hs | ⟨v, hv, hn⟩
      · exact Or.inl hs
      · exact Or.inr ⟨v, List.mem_cons_of_mem _ hv, hn⟩
    · rw [if_neg h1] at h
      by_cases h2 : notna p.2 = true
      · rw [if_pos h2] at h
        cases hp : pyFloat p.2 with
        | some q =>
          simp only [hp] at h
          rcases ih _ out h k hk with hs | ⟨v, hv, hn⟩
          · by_cases he : k = p.1
            · subst he
              refine Or.inr ⟨p.2, ?_, h2⟩
              exact (Prod.mk.eta (p := p)) ▸ List.mem_cons_self _ _
            · rw [dget_dset_ne _ _ he] at hs
              exact Or.inl hs
          · exact Or.inr ⟨v, List.mem_cons_of_mem _ hv, hn⟩
        | none =>
          simp only [hp] at h
          exact absurd h (by simp)
      · rw [if_neg h2] at h
        rcases ih fin out h k hk with hs | ⟨v, hv, hn⟩
        · exact Or.inl hs
        · exact Or.inr ⟨v, List.mem_cons_of_mem _ hv, hn⟩

/-- The reconciliation steps add at most the keys `revenue` and
`gross_profit`. -/
theorem reconcile_keys (fin : List (String × ℚ)) (k : String)
    (h : (dget (reconcile fin) k).isSome = true) :
    (dget fin k).isSome = true ∨ k = "revenue" ∨ k = "gross_profit" := by
  by_cases h1 : k = "revenue"
  · exact Or.inr (Or.inl h1)
  by_cases h2 : k = "gross_profit"
  · exact Or.inr (Or.inr h2)
  left
  unfold reconcile at h
  rw [dget_grossProfitFix_ne _ h2, dget_componentFix_ne _ h1] at h
  exact h

/-- Counterexample to C10 as stated: with components `100` and `50` and no
`revenue` column, the returned mapping contains a `revenue` key even
though no row value backs it. -/
theorem output_key_without_row_value_cex :
    fixed_to_financials_dict (some [[("revenue_products", PyVal.num 100), ("revenue_services", PyVal.num 50)]]) =
      .ok (some [("revenue_products", 100), ("revenue_services", 50), ("revenue", 150)]) ∧
    dget [("revenue_products", PyVal.num 100), ("revenue_services", PyVal.num 50)] "revenue" = none := by
  refine ⟨?_, by simp [dget]⟩
  simp [fixed_to_financials_dict, buildFinancials, buildFinancialsAux, notna, pyFloat,
    reconcile, componentFix, grossProfitFix, dget, dset, Except.map]
  norm_num
  simp [dget, dset]

/-- C10 (amended): a mapping returned by the patched call never contains
`cik` or `year`, and each of its keys comes from a non-null row value
except possibly the `revenue` and `gross_profit` keys added by the
reconciliation steps; every value is a number by construction. -/
theorem output_keys_from_row (row : List (String × PyVal)) (fin : List (String × ℚ))
    (h : fixed_to_financials_dict (some [row]) = .ok (some fin)) :
    dget fin "cik" = none ∧ dget fin "year" = none ∧
    ∀ k, (dget fin k).isSome = true →
      (∃ v, (k, v) ∈ row ∧ notna v = true) ∨ k = "revenue" ∨ k = "gross_profit" := by
  simp only [fixed_to_financials_dict, buildFinancials] at h
  cases hb : buildFinancialsAux [] row with
  | error e =>
    rw [hb] at h
    simp [Except.map] at h
  | ok fin0 =>
    rw [hb] at h
    simp only [Except.map, Except.ok.injEq, Option.some.injEq] at h
    subst h
    refine ⟨?_, ?_, ?_⟩
    · unfold reconcile
      rw [dget_grossProfitFix_ne _ (by decide), dget_componentFix_ne _ (by decide),
        buildFinancialsAux_skips_cik_year row [] fin0 hb "cik" (Or.inl rfl)]
      rfl
    · unfold reconcile
      rw [dget_grossProfitFix_ne _ (by decide), dget_componentFix_ne _ (by decide),
        buildFinancialsAux_skips_cik_year row [] fin0 hb "year" (Or.inr rfl)]
      rfl
    · intro k hk
      rcases reconcile_keys fin0 k hk with hs | hrev
      · rcases buildFinancialsAux_keys row [] fin0 hb k hs with hfalse | hex
        · simp [dget] at hfalse
        · exact Or.inl hex
      · exact Or.inr hrev

/-- Witness for the amended C10: a row carrying a `cik` column yields a
mapping with no `cik` key. -/
theorem output_keys_from_row_witness :
    dget [("revenue", (7:ℚ))] "cik" = none :=
  (output_keys_from_row [("cik", PyVal.num 1), ("revenue", PyVal.num 7)] [("revenue", (7:ℚ))]
    (by simp [fixed_to_financials_dict, buildFinancials, buildFinancialsAux, notna, pyFloat,
      reconcile, componentFix, grossProfitFix, dget, dset, Except.map])).1

end EdgarFix
